import Mathlib

/-!
Verification development for the `ushanka` archival-package pipeline.

The Python sources are shallowly embedded:

* `archivematica/mets.py` — `METSFile` / `AdministrativeMetadata` work on the
  dict-of-dicts tree produced by `xmltodict.parse`; we model that tree as
  `PyVal` and Python subscripting / `int()` / iteration as `Except`-valued
  operations with Python's exception classes (`KeyError`, `TypeError`, ...).
* `fedora/mets.py` and the identical `METSSection` in `fedora/fedora.py` —
  lxml element trees are modelled as `XNode` rose trees, and the one XPath
  query the code runs is modelled by its document-order semantics.
* `fedora/fedora.py` — `DisseminationInformationPackage.associate_parts`
  builds Python dicts (insertion-ordered association lists, `PyDict`), and
  `DIPPart.__identify_ocr` / `add_ocr` consume them.
* the third-party calls `bitmath.Byte(bytes=n).best_prefix()` and
  `humanize.naturalsize(n)` are modelled from those libraries' documented
  behaviour (NIST binary scale, resp. decimal 1000-base scale).
-/

/-- Python exception classes that the modelled code can raise. -/
inductive PyErr where
  | keyError
  | typeError
  | indexError
  | valueError
  | fileNotFoundError
  deriving DecidableEq

/-- A Python value as produced by `xmltodict.parse`: strings, (ordered)
dicts with string keys, lists, and `None` (which
`AdministrativeMetadata.__find_admin_metadata` can return by falling off
its loop). -/
inductive PyVal where
  | none : PyVal
  | str : String → PyVal
  | dict : List (String × PyVal) → PyVal
  | list : List PyVal → PyVal

mutual

/-- Decidable equality for `PyVal` (the derive handler does not support this
nested inductive). -/
def PyVal.decEq : (a b : PyVal) → Decidable (a = b)
  | .none, .none => isTrue rfl
  | .none, .str _ => isFalse (fun h => nomatch h)
  | .none, .dict _ => isFalse (fun h => nomatch h)
  | .none, .list _ => isFalse (fun h => nomatch h)
  | .str _, .none => isFalse (fun h => nomatch h)
  | .str a, .str b =>
    match String.decEq a b with
    | isTrue h => isTrue (by rw [h])
    | isFalse h => isFalse (by intro hh; injection hh; contradiction)
  | .str _, .dict _ => isFalse (fun h => nomatch h)
  | .str _, .list _ => isFalse (fun h => nomatch h)
  | .dict _, .none => isFalse (fun h => nomatch h)
  | .dict _, .str _ => isFalse (fun h => nomatch h)
  | .dict a, .dict b =>
    match PyVal.decEqPairs a b with
    | isTrue h => isTrue (by rw [h])
    | isFalse h => isFalse (by intro hh; injection hh; contradiction)
  | .dict _, .list _ => isFalse (fun h => nomatch h)
  | .list _, .none => isFalse (fun h => nomatch h)
  | .list _, .str _ => isFalse (fun h => nomatch h)
  | .list _, .dict _ => isFalse (fun h => nomatch h)
  | .list a, .list b =>
    match PyVal.decEqList a b with
    | isTrue h => isTrue (by rw [h])
    | isFalse h => isFalse (by intro hh; injection hh; contradiction)

/-- Decidable equality for lists of `PyVal`. -/
def PyVal.decEqList : (a b : List PyVal) → Decidable (a = b)
  | [], [] => isTrue rfl
  | [], _ :: _ => isFalse (fun h => nomatch h)
  | _ :: _, [] => isFalse (fun h => nomatch h)
  | x :: xs, y :: ys =>
    match PyVal.decEq x y, PyVal.decEqList xs ys with
    | isTrue h1, isTrue h2 => isTrue (by rw [h1, h2])
    | isFalse h1, _ => isFalse (by
        intro hh; simp only [List.cons.injEq] at hh; exact h1 hh.1)
    | _, isFalse h2 => isFalse (by
        intro hh; simp only [List.cons.injEq] at hh; exact h2 hh.2)

/-- Decidable equality for dict entry lists. -/
def PyVal.decEqPairs : (a b : List (String × PyVal)) → Decidable (a = b)
  | [], [] => isTrue rfl
  | [], _ :: _ => isFalse (fun h => nomatch h)
  | _ :: _, [] => isFalse (fun h => nomatch h)
  | (k, v) :: as, (k2, v2) :: bs =>
    match String.decEq k k2, PyVal.decEq v v2, PyVal.decEqPairs as bs with
    | isTrue h1, isTrue h2, isTrue h3 => isTrue (by rw [h1, h2, h3])
    | isFalse h1, _, _ => isFalse (by
        intro hh; simp only [List.cons.injEq, Prod.mk.injEq] at hh; exact h1 hh.1.1)
    | _, isFalse h2, _ => isFalse (by
        intro hh; simp only [List.cons.injEq, Prod.mk.injEq] at hh; exact h2 hh.1.2)
    | _, _, isFalse h3 => isFalse (by
        intro hh; simp only [List.cons.injEq, Prod.mk.injEq] at hh; exact h3 hh.2)

end

instance : DecidableEq PyVal := PyVal.decEq

namespace PyVal

/-- Python subscripting `v[k]` with a string key: a dict lookup returns the
value or raises `KeyError`; subscripting `None`, a string or a list with a
string key raises `TypeError`. -/
def getItem : PyVal → String → Except PyErr PyVal
  | .dict d, k =>
    match d.lookup k with
    | some v => .ok v
    | Option.none => .error .keyError
  | .none, _ => .error .typeError
  | .str _, _ => .error .typeError
  | .list _, _ => .error .typeError

/-- Python iteration `for x in v`: a list yields its elements, a dict yields
its keys (as strings), a string yields its one-character substrings, and
iterating `None` raises `TypeError`. -/
def pyIter : PyVal → Except PyErr (List PyVal)
  | .list xs => .ok xs
  | .dict d => .ok (d.map (fun p => .str p.1))
  | .str s => .ok (s.data.map (fun c => .str (String.singleton c)))
  | .none => .error .typeError

end PyVal

/-- Parse an optional sign followed by decimal digits (ASCII). -/
def parseSignedDigits : List Char → Option Int
  | [] => Option.none
  | c :: cs =>
    let digits (l : List Char) : Option Nat :=
      if l.isEmpty then Option.none
      else l.foldl (fun acc d =>
        match acc with
        | some n => if d.isDigit then some (n * 10 + (d.toNat - 48)) else Option.none
        | Option.none => Option.none) (some 0)
    if c = '-' then (digits cs).map (fun n => -(n : Int))
    else if c = '+' then (digits cs).map (fun n => (n : Int))
    else (digits (c :: cs)).map (fun n => (n : Int))

/-- Python `int(v)`: on a string, strips surrounding whitespace and parses an
optional sign followed by decimal digits, raising `ValueError` on anything
else; on `None`, a dict or a list it raises `TypeError`.  (Modelled for ASCII
decimal literals, the only form the METS documents carry.) -/
def pyInt (v : PyVal) : Except PyErr Int :=
  match v with
  | .str s =>
    match parseSignedDigits (((s.data.dropWhile Char.isWhitespace).reverse.dropWhile
        Char.isWhitespace).reverse) with
    | some n => .ok n
    | Option.none => .error .valueError
  | _ => .error .typeError

/-- Run a computation under Python's `try: ... except KeyError: pass`:
a `KeyError` is swallowed (yielding nothing), any other exception
propagates. -/
def exceptKeyError (m : Except PyErr α) : Except PyErr (Option α) :=
  match m with
  | .ok a => .ok (some a)
  | .error .keyError => .ok Option.none
  | .error e => .error e

namespace Archivematica

open PyVal

/-- `AdministrativeMetadata.__find_admin_metadata` (archivematica/mets.py):
scan the administrative-metadata sections for one whose `@ID` equals the
record's id; falling off the loop returns Python `None`.  A section on which
the `@ID` subscript raises propagates that exception. -/
def find_admin_metadata (all : List PyVal) (id : PyVal) : Except PyErr PyVal :=
  match all with
  | [] => .ok .none
  | s :: rest => do
    let v ← s.getItem "@ID"
    if v = id then .ok s else find_admin_metadata rest id

/-- `AdministrativeMetadata.__get_size_in_bytes`: the chained subscripts
`om["mets:techMD"]["mets:mdWrap"]["mets:xmlData"]["premis:object"]`
`["premis:objectCharacteristics"]["premis:size"]`. -/
def get_size_in_bytes (om : PyVal) : Except PyErr PyVal := do
  let a ← om.getItem "mets:techMD"
  let b ← a.getItem "mets:mdWrap"
  let c ← b.getItem "mets:xmlData"
  let d ← c.getItem "premis:object"
  let e ← d.getItem "premis:objectCharacteristics"
  e.getItem "premis:size"

/-- The common accessor stem
`om["mets:techMD"]["mets:mdWrap"]["mets:xmlData"]["premis:object"]`
`["premis:objectCharacteristics"]["premis:format"]`. -/
def get_format (om : PyVal) : Except PyErr PyVal := do
  let a ← om.getItem "mets:techMD"
  let b ← a.getItem "mets:mdWrap"
  let c ← b.getItem "mets:xmlData"
  let d ← c.getItem "premis:object"
  let e ← d.getItem "premis:objectCharacteristics"
  e.getItem "premis:format"

/-- `AdministrativeMetadata.get_format_registry`: returns the
`(premis:formatRegistryName, premis:formatRegistryKey)` pair from the
format's `premis:formatRegistry` element. -/
def get_format_registry (om : PyVal) : Except PyErr (PyVal × PyVal) := do
  let f ← get_format om
  let reg ← f.getItem "premis:formatRegistry"
  let name ← reg.getItem "premis:formatRegistryName"
  let key ← reg.getItem "premis:formatRegistryKey"
  .ok (name, key)

/-- Python `str(v)` as used by f-string interpolation; exact on strings (the
only case the documents exercise), `None` renders as `"None"`, and container
values are abstracted by a constant tag. -/
def pyStr : PyVal → String
  | .str s => s
  | .none => "None"
  | .dict _ => "<dict>"
  | .list _ => "<list>"

/-- `AdministrativeMetadata.get_pronom_link`: builds the PRONOM URL when the
registry name is the literal `"PRONOM"`, else returns `""`; an exception from
`get_format_registry` propagates. -/
def get_pronom_link (om : PyVal) : Except PyErr String := do
  let fr ← get_format_registry om
  if fr.1 = .str "PRONOM" then
    .ok ("http://nationalarchives.gov.uk/PRONOM/" ++ pyStr fr.2)
  else
    .ok ""

/-- `AdministrativeMetadata.get_checksum`: the `premis:fixity` element's
`(premis:messageDigestAlgorithm, premis:messageDigest)` pair. -/
def get_checksum (om : PyVal) : Except PyErr (PyVal × PyVal) := do
  let a ← om.getItem "mets:techMD"
  let b ← a.getItem "mets:mdWrap"
  let c ← b.getItem "mets:xmlData"
  let d ← c.getItem "premis:object"
  let e ← d.getItem "premis:objectCharacteristics"
  let fixity ← e.getItem "premis:fixity"
  let alg ← fixity.getItem "premis:messageDigestAlgorithm"
  let dig ← fixity.getItem "premis:messageDigest"
  .ok (alg, dig)

/-- One `AdministrativeMetadata` object after `__init__` has finished:
besides the constructor arguments it holds the resolved section, the raw
size value, and the integer the constructor parsed out of it while building
`best_size` via `bitmath.Byte(bytes=int(self.size))`. -/
structure AdminMetadata where
  id : PyVal
  name : String
  path : PyVal
  original_metadata : PyVal
  size : PyVal
  sizeInt : Int
  deriving DecidableEq

/-- `AdministrativeMetadata.__init__`: resolves the section by id, reads the
size, and parses it as an integer (for `best_size`); any exception from
those steps propagates to the caller. -/
def AdministrativeMetadata_init (admsec : PyVal) (name : String) (path : PyVal)
    (all : List PyVal) : Except PyErr AdminMetadata := do
  let om ← find_admin_metadata all admsec
  let size ← get_size_in_bytes om
  let n ← pyInt size
  .ok { id := admsec, name := name, path := path, original_metadata := om,
        size := size, sizeInt := n }

/-- Split a character list on a separator, Python `str.split` style (an
empty input gives one empty segment, a trailing separator a final empty
segment). -/
def splitOnChar (sep : Char) : List Char → List (List Char)
  | [] => [[]]
  | c :: cs =>
    match splitOnChar sep cs with
    | [] => [[]]
    | g :: gs => if c = sep then [] :: g :: gs else (c :: g) :: gs

/-- The last segment of a split. -/
def lastSeg : List (List Char) → List Char
  | [] => []
  | [g] => g
  | _ :: g :: gs => lastSeg (g :: gs)

/-- Python `href.split("/")[-1]`: the last `/`-separated component. -/
def lastPathSegment (href : String) : String :=
  String.mk (lastSeg (splitOnChar '/' href.data))

/-- The body of the `try:` block in `METSFile.__find_original_files` for a
single file entry: read `@ADMID`, the `mets:FLocat` location, derive the
display name, and construct the record.  Calling `.split` on a non-string
`@xlink:href` value would be an `AttributeError`; the documents store
attributes as strings, and a non-string here is mapped to `TypeError`. -/
def process_file_entry (all : List PyVal) (entry : PyVal) :
    Except PyErr AdminMetadata := do
  let admsec ← entry.getItem "@ADMID"
  let flocat ← entry.getItem "mets:FLocat"
  let href ← flocat.getItem "@xlink:href"
  match href with
  | .str h => AdministrativeMetadata_init admsec (lastPathSegment h) href all
  | _ => .error .typeError

/-- One iteration of the inner loop of `__find_original_files`, wrapped in
`try: ... except KeyError: pass`: a `KeyError` anywhere in the entry's
processing skips the entry; any other exception aborts the walk. -/
def process_file (all : List PyVal) (entry : PyVal) :
    Except PyErr (Option AdminMetadata) :=
  exceptKeyError (process_file_entry all entry)

/-- The inner loop of `__find_original_files` over the entries of one
`"original"` file group. -/
def walk_entries (all : List PyVal) : List PyVal → Except PyErr (List AdminMetadata)
  | [] => .ok []
  | e :: rest => do
    let r ← process_file all e
    let tail ← walk_entries all rest
    match r with
    | some a => .ok (a :: tail)
    | Option.none => .ok tail

/-- The outer loop of `__find_original_files` over the file groups: only a
group whose `@USE` attribute equals `"original"` is walked. -/
def walk_groups (all : List PyVal) : List PyVal → Except PyErr (List AdminMetadata)
  | [] => .ok []
  | g :: rest => do
    let use ← g.getItem "@USE"
    let here ←
      if use = .str "original" then do
        let files ← g.getItem "mets:file"
        let entries ← files.pyIter
        walk_entries all entries
      else
        .ok []
    let tail ← walk_groups all rest
    .ok (here ++ tail)

/-- `METSFile.__find_original_files`: walk
`contents["mets:mets"]["mets:fileSec"]["mets:fileGrp"]`, keeping only groups
used for `"original"` content. -/
def find_original_files (contents : PyVal) (all : List PyVal) :
    Except PyErr (List AdminMetadata) := do
  let root ← contents.getItem "mets:mets"
  let fileSec ← root.getItem "mets:fileSec"
  let grps ← fileSec.getItem "mets:fileGrp"
  let groups ← grps.pyIter
  walk_groups all groups

/-- `METSFile.__get_all_administrative_metadata`: the list comprehension
`[section for section in contents["mets:mets"]["mets:amdSec"]]`. -/
def get_all_administrative_metadata (contents : PyVal) :
    Except PyErr (List PyVal) := do
  let root ← contents.getItem "mets:mets"
  let amd ← root.getItem "mets:amdSec"
  amd.pyIter

/-- `sum([int(original.size) for original in original_files])`, exactly as
the `METSFile` constructor computes `total_size`. -/
def sum_int_sizes : List AdminMetadata → Except PyErr Int
  | [] => .ok 0
  | r :: rest => do
    let n ← pyInt r.size
    let tail ← sum_int_sizes rest
    .ok (n + tail)

/-- A `METSFile` object after `__init__` has finished. -/
structure METSFileObj where
  administrative_metadata : List PyVal
  original_files : List AdminMetadata
  total_size : Int
  deriving DecidableEq

/-- `METSFile.__init__` on an already-parsed document: collect the
administrative-metadata sections, enumerate the original files, and total
their integer-parsed sizes.  (`pretty_total_size` is the `bitmath` rendering
of `total_size`, modelled separately.) -/
def METSFile_init (contents : PyVal) : Except PyErr METSFileObj := do
  let am ← get_all_administrative_metadata contents
  let ofs ← find_original_files contents am
  let total ← sum_int_sizes ofs
  .ok { administrative_metadata := am, original_files := ofs, total_size := total }

end Archivematica

/-! ### Third-party size renderers

`METSFile.pretty_total_size` is `bitmath.Byte(bytes=n).best_prefix()`
(NIST binary scale), whose `str()` is the full-precision value followed by
the unit name.  `METSSection.get_size` in `fedora/fedora.py` is
`humanize.naturalsize(text)` (decimal 1000-base scale, one decimal).
Both renderers are modelled as a pair (exact scaled value as a rational,
unit symbol). -/

/-- The NIST binary units `bitmath.best_prefix` can choose from, in
increasing order of magnitude. -/
def nistUnits : List String :=
  ["Byte", "KiB", "MiB", "GiB", "TiB", "PiB", "EiB"]

/-- The unit index `bitmath.best_prefix` picks for a byte count `n`:
values below 1024 stay in `Byte`; otherwise the exponent is
`int(math.log(n, 1024))` — the position on the 1024 ladder — capped at the
largest NIST unit (EiB). -/
def bitmathBestIdx (n : Nat) : Nat :=
  if n < 1024 then 0
  else if n < 1024 ^ 2 then 1
  else if n < 1024 ^ 3 then 2
  else if n < 1024 ^ 4 then 3
  else if n < 1024 ^ 5 then 4
  else if n < 1024 ^ 6 then 5
  else 6

/-- `bitmath.Byte(bytes=n).best_prefix()` as (scaled value, unit symbol). -/
def bitmathBestUnit (n : Nat) : ℚ × String :=
  ((n : ℚ) / 1024 ^ bitmathBestIdx n, nistUnits.getD (bitmathBestIdx n) "EiB")

/-- `METSFile.pretty_total_size`, applied to the integer `total_size`. -/
def pretty_total_size (total : Nat) : ℚ × String :=
  bitmathBestUnit total

/-- The decimal suffix table of `humanize.naturalsize` (default arguments:
`binary=False`, `gnu=False`), paired with its enumeration index. -/
def naturalsizeSuffixes : List (Nat × String) :=
  [(0, "kB"), (1, "MB"), (2, "GB"), (3, "TB"), (4, "PB"), (5, "EB"),
   (6, "ZB"), (7, "YB")]

/-- The `for i, s in enumerate(suffix)` loop of `humanize.naturalsize`:
the first suffix whose threshold `1000 ** (i + 2)` exceeds the byte count
wins; falling off the loop keeps the last suffix. -/
def naturalsizeLoop (n : Nat) : List (Nat × String) → ℚ × String
  | [] => (0, "")
  | (i, s) :: rest =>
    if n < 1000 ^ (i + 2) then ((1000 * n : ℚ) / 1000 ^ (i + 2), s)
    else
      match rest with
      | [] => ((1000 * n : ℚ) / 1000 ^ (i + 2), s)
      | _ :: _ => naturalsizeLoop n rest

/-- `humanize.naturalsize(n)` with default arguments, as
(value rendered before `"%.1f"` formatting, unit symbol): `1` is
`"1 Byte"`, other values below 1000 are `"<n> Bytes"`, larger values use
the decimal 1000-base suffix chosen by the loop. -/
def naturalsize (n : Nat) : ℚ × String :=
  if n = 1 then (1, "Byte")
  else if n < 1000 then ((n : ℚ), "Bytes")
  else naturalsizeLoop n naturalsizeSuffixes

/-- Modelled from the spec: the unit-scaling rule the spec prescribes for
size rendering — the largest unit among B, KiB, MiB, GiB, TiB (binary
1024 base) whose scaled value is at least 1. -/
def specUnitIdx (n : Nat) : Nat :=
  if n < 1024 then 0
  else if n < 1024 ^ 2 then 1
  else if n < 1024 ^ 3 then 2
  else if n < 1024 ^ 4 then 3
  else 4

/-- Modelled from the spec: the spec's unit symbols for `specUnitIdx`. -/
def specUnits : List String := ["B", "KiB", "MiB", "GiB", "TiB"]

/-! ### lxml element trees and `METSSection` (fedora/mets.py and the
identical class in fedora/fedora.py) -/

/-- An XML node as seen through lxml: an element with a (namespace-
qualified) tag and an ordered list of children, or a text node. -/
inductive XNode where
  | elem : String → List XNode → XNode
  | text : String → XNode

mutual

/-- Decidable equality for `XNode`. -/
def XNode.decEq : (a b : XNode) → Decidable (a = b)
  | .text a, .text b =>
    match String.decEq a b with
    | isTrue h => isTrue (by rw [h])
    | isFalse h => isFalse (by intro hh; injection hh; contradiction)
  | .text _, .elem _ _ => isFalse (fun h => nomatch h)
  | .elem _ _, .text _ => isFalse (fun h => nomatch h)
  | .elem t cs, .elem t2 cs2 =>
    match String.decEq t t2, XNode.decEqList cs cs2 with
    | isTrue h1, isTrue h2 => isTrue (by rw [h1, h2])
    | isFalse h1, _ => isFalse (by
        intro hh; simp only [XNode.elem.injEq] at hh; exact h1 hh.1)
    | _, isFalse h2 => isFalse (by
        intro hh; simp only [XNode.elem.injEq] at hh; exact h2 hh.2)

/-- Decidable equality for lists of `XNode`. -/
def XNode.decEqList : (a b : List XNode) → Decidable (a = b)
  | [], [] => isTrue rfl
  | [], _ :: _ => isFalse (fun h => nomatch h)
  | _ :: _, [] => isFalse (fun h => nomatch h)
  | x :: xs, y :: ys =>
    match XNode.decEq x y, XNode.decEqList xs ys with
    | isTrue h1, isTrue h2 => isTrue (by rw [h1, h2])
    | isFalse h1, _ => isFalse (by
        intro hh; simp only [List.cons.injEq] at hh; exact h1 hh.1)
    | _, isFalse h2 => isFalse (by
        intro hh; simp only [List.cons.injEq] at hh; exact h2 hh.2)

end

instance : DecidableEq XNode := XNode.decEq

mutual

/-- The XPath string-value of a node: its text, or the concatenation of
the string-values of an element's children in document order. -/
def stringValue : XNode → String
  | .text s => s
  | .elem _ cs => stringValueList cs

/-- String-values of a list of siblings, concatenated. -/
def stringValueList : List XNode → String
  | [] => ""
  | n :: rest => stringValue n ++ stringValueList rest

end

mutual

/-- All nodes of a subtree in document order (preorder), the root first. -/
def descendantsSelf : XNode → List XNode
  | .text s => [.text s]
  | .elem t cs => .elem t cs :: descendantsList cs

/-- Document-order concatenation of the subtrees of a sibling list. -/
def descendantsList : List XNode → List XNode
  | [] => []
  | n :: rest => descendantsSelf n ++ descendantsList rest

end

/-- The XPath `descendant::` axis: every node strictly below `n`. -/
def strictDescendants : XNode → List XNode
  | .text _ => []
  | .elem _ cs => descendantsList cs

/-- Whether a node is an element with the given qualified tag. -/
def isTagged (tag : String) : XNode → Bool
  | .elem t _ => t = tag
  | .text _ => false

/-- The predicate `[descendant::premis:objectIdentifierValue="hash"]`: some
strict descendant is a `premis:objectIdentifierValue` element whose string-
value equals the hash exactly (XPath string comparison: case-sensitive, no
trimming). -/
def hasIdentifierValue (hash : String) (n : XNode) : Bool :=
  (strictDescendants n).any
    (fun d => isTagged "premis:objectIdentifierValue" d && stringValue d = hash)

/-- The node list returned by
`root.xpath('//mets:xmlData[descendant::premis:objectIdentifierValue="hash"]')`:
all `mets:xmlData` elements satisfying the identifier predicate, in document
order. -/
def xmlDataMatches (root : XNode) (hash : String) : List XNode :=
  (descendantsSelf root).filter
    (fun n => isTagged "mets:xmlData" n && hasIdentifierValue hash n)

/-- `METSSection.get_techmd`: the `[0]` subscript of the XPath result list;
an empty result raises `IndexError`. -/
def get_techmd (root : XNode) (hash : String) : Except PyErr XNode :=
  match xmlDataMatches root hash with
  | [] => .error .indexError
  | x :: _ => .ok x

/-- lxml's `.text` attribute: the text that precedes the element's first
child element (None when the element starts with a child element or is
empty). -/
def elemText : XNode → Option String
  | .elem _ (XNode.text s :: _) => some s
  | _ => Option.none

/-- `METSSection.get_size` (fedora/fedora.py): applies
`humanize.naturalsize` to the text of the first `.//premis:size`
descendant; an empty XPath result raises `IndexError`, a `None` text
raises `TypeError` inside `float()`, a non-numeric text `ValueError`. -/
def get_size (techmd : XNode) : Except PyErr (ℚ × String) :=
  match (strictDescendants techmd).filter (isTagged "premis:size") with
  | [] => .error .indexError
  | v :: _ =>
    match elemText v with
    | Option.none => .error .typeError
    | some s =>
      match parseSignedDigits s.data with
      | some (Int.ofNat n) => .ok (naturalsize n)
      | _ => .error .valueError

/-! ### `DisseminationInformationPackage` and `DIPPart` (fedora/fedora.py) -/

/-- Python `a in b` on strings: substring containment. -/
def pyIn (needle hay : String) : Bool :=
  decide (needle.data <:+: hay.data)

/-- A Python dict with string keys and values: an insertion-ordered
association list with unique keys. -/
abbrev PyDict := List (String × String)

/-- Python dict assignment `d[k] = v`: updates the entry in place when the
key exists (keys are unique, so replacing the first occurrence is the
in-place update), otherwise appends the new entry at the end. -/
def dictSet : PyDict → String → String → PyDict
  | [], k, v => [(k, v)]
  | (a, b) :: rest, k, v =>
    if a = k then (k, v) :: rest else (a, b) :: dictSet rest k v

/-- Python `d[k]` on a string dict: the value, or `KeyError`. -/
def dictGet (d : PyDict) (k : String) : Except PyErr String :=
  match List.lookup k d with
  | some v => .ok v
  | Option.none => .error .keyError

/-- Python `k in d.keys()`: exact key membership. -/
def dictHasKey (d : PyDict) (k : String) : Bool :=
  (List.lookup k d).isSome

/-- The body of `DisseminationInformationPackage.associate_parts` for one
part filename: build the dict with `uuid` (= `part[:36]`), `object` and
`location`, then run the OCR loop and the thumbnail loop, each assignment
overwriting the previous match. -/
def build_part (part dip_location : String) (ocr_files thumbnails : List String) :
    PyDict :=
  let uuid := part.take 36
  let d : PyDict := [("uuid", uuid), ("object", part), ("location", dip_location)]
  let d := ocr_files.foldl
    (fun d f => if pyIn uuid f then dictSet d "ocr_file" f else d) d
  thumbnails.foldl
    (fun d t => if pyIn uuid t then dictSet d "thumbnail" t else d) d

/-- `DisseminationInformationPackage.associate_parts`: one part dict per
object filename. -/
def associate_parts (parts : List String) (ocr_files thumbnails : List String)
    (dip_location : String) : List PyDict :=
  parts.map (fun part => build_part part dip_location ocr_files thumbnails)

/-- `DIPPart.__identify_ocr`: tests for the key `"ocr"` and, when present,
reads the key `"ocr_file"`; otherwise yields `""`. -/
def identify_ocr (part_package : PyDict) : Except PyErr String :=
  if dictHasKey part_package "ocr" then dictGet part_package "ocr_file"
  else .ok ""

/-- `DIPPart.add_ocr`: when `self.ocr` is non-empty, attaches an OCR
datastream from `"<path>/OCRfiles/<ocr>"` (the repository upload itself is
out of scope and abstracted to the path it would send); when `self.ocr` is
the empty string, does nothing and returns `None`. -/
def add_ocr (ocr : String) (path : String) : Option String :=
  if ocr ≠ "" then some (path ++ "/OCRfiles/" ++ ocr) else Option.none

/-- The directory trees currently on disk, for the extraction/cleanup
lifecycle. -/
abbrev FS := List String

/-- `shutil.rmtree(path)`: recursively deletes the tree when it exists and
raises `FileNotFoundError` when it does not (no `ignore_errors`). -/
def rmtree (fs : FS) (path : String) : Except PyErr FS :=
  if path ∈ fs then .ok (List.filter (fun p => p ≠ path) fs) else .error .fileNotFoundError

/-- A `DisseminationInformationPackage` object after `__init__` (which
always runs `extract_package`, walks the extraction, and classifies the
parts): the stored attributes read back by later attribute access. -/
structure DIPObj where
  path : String
  extract_location : String
  dip_location : String
  parts : List PyDict
  deriving DecidableEq

/-- `DisseminationInformationPackage.remove_extracted_package`:
`shutil.rmtree(self.extract_location)`.  The in-memory object is untouched,
so it is returned unchanged next to the new filesystem. -/
def remove_extracted_package (d : DIPObj) (fs : FS) :
    Except PyErr (DIPObj × FS) :=
  (rmtree fs d.extract_location).map (fun fs2 => (d, fs2))

/-- A small concrete packaging document: two administrative-metadata
sections and one `"original"` file group with two complete file entries of
sizes 3 and 4 bytes. -/
def sampleSec1 : PyVal :=
  .dict [("@ID", .str "amd1"),
    ("mets:techMD", .dict [("mets:mdWrap", .dict [("mets:xmlData",
      .dict [("premis:object", .dict [("premis:objectCharacteristics",
        .dict [("premis:size", .str "3")])])])])])]

/-- Second sample section, size 4 bytes. -/
def sampleSec2 : PyVal :=
  .dict [("@ID", .str "amd2"),
    ("mets:techMD", .dict [("mets:mdWrap", .dict [("mets:xmlData",
      .dict [("premis:object", .dict [("premis:objectCharacteristics",
        .dict [("premis:size", .str "4")])])])])])]

/-- Sample file entry referencing `sampleSec1`. -/
def sampleEntry1 : PyVal :=
  .dict [("@ADMID", .str "amd1"),
    ("mets:FLocat", .dict [("@xlink:href", .str "objects/a.txt")])]

/-- Sample file entry referencing `sampleSec2`. -/
def sampleEntry2 : PyVal :=
  .dict [("@ADMID", .str "amd2"),
    ("mets:FLocat", .dict [("@xlink:href", .str "objects/b.txt")])]

/-- The sample document assembled. -/
def sampleDoc : PyVal :=
  .dict [("mets:mets", .dict [
    ("mets:amdSec", .list [sampleSec1, sampleSec2]),
    ("mets:fileSec", .dict [("mets:fileGrp", .list [
      .dict [("@USE", .str "original"),
        ("mets:file", .list [sampleEntry1, sampleEntry2])]])])])]

/-- The `METSFile` object that loading `sampleDoc` produces. -/
def sampleM : Archivematica.METSFileObj :=
  { administrative_metadata := [sampleSec1, sampleSec2],
    original_files := [
      { id := .str "amd1", name := "a.txt", path := .str "objects/a.txt",
        original_metadata := sampleSec1, size := .str "3", sizeInt := 3 },
      { id := .str "amd2", name := "b.txt", path := .str "objects/b.txt",
        original_metadata := sampleSec2, size := .str "4", sizeInt := 4 }],
    total_size := 7 }

/-- A section that carries an `@ID` but none of the technical metadata the
record constructor reads. -/
def skimpySec : PyVal := .dict [("@ID", .str "amd1")]

/-- A complete file entry (both `@ADMID` and a location) referencing
`skimpySec`. -/
def skipEntry : PyVal :=
  .dict [("@ADMID", .str "amd1"),
    ("mets:FLocat", .dict [("@xlink:href", .str "objects/a.txt")])]

/-- A document whose single `"original"` entry carries both references but
whose section lacks the size chain. -/
def skipDoc : PyVal :=
  .dict [("mets:mets", .dict [
    ("mets:amdSec", .list [skimpySec]),
    ("mets:fileSec", .dict [("mets:fileGrp", .list [
      .dict [("@USE", .str "original"),
        ("mets:file", .list [skipEntry])]])])])]

/-- A section whose `@ID` (`"amdX"`) matches no file entry. -/
def dangleSec : PyVal := .dict [("@ID", .str "amdX")]

/-- A document whose single `"original"` entry references `@ADMID = "amd1"`
while the only administrative-metadata section is `dangleSec`. -/
def dangleDoc : PyVal :=
  .dict [("mets:mets", .dict [
    ("mets:amdSec", .list [dangleSec]),
    ("mets:fileSec", .dict [("mets:fileGrp", .list [
      .dict [("@USE", .str "original"),
        ("mets:file", .list [sampleEntry1])]])])])]

/-- A section whose format carries a designation but no
`premis:formatRegistry` reference. -/
def noRegSec : PyVal :=
  .dict [("mets:techMD", .dict [("mets:mdWrap", .dict [("mets:xmlData",
    .dict [("premis:object", .dict [("premis:objectCharacteristics",
      .dict [("premis:format", .dict [("premis:formatDesignation",
        .dict [("premis:formatName", .str "JPEG")])])])])])])])]

/-- A section whose format registry is PRONOM with key `fmt/43`. -/
def pronomSec : PyVal :=
  .dict [("mets:techMD", .dict [("mets:mdWrap", .dict [("mets:xmlData",
    .dict [("premis:object", .dict [("premis:objectCharacteristics",
      .dict [("premis:format", .dict [("premis:formatRegistry",
        .dict [("premis:formatRegistryName", .str "PRONOM"),
          ("premis:formatRegistryKey", .str "fmt/43")])])])])])])])]

/-- A section whose format registry is not PRONOM. -/
def otherRegSec : PyVal :=
  .dict [("mets:techMD", .dict [("mets:mdWrap", .dict [("mets:xmlData",
    .dict [("premis:object", .dict [("premis:objectCharacteristics",
      .dict [("premis:format", .dict [("premis:formatRegistry",
        .dict [("premis:formatRegistryName", .str "MIME"),
          ("premis:formatRegistryKey", .str "image/jpeg")])])])])])])])]

/-- Decidable equality of `Except` results, for evaluating the model on
concrete documents. -/
def Except.decEqResult [DecidableEq e] [DecidableEq a] :
    (x y : Except e a) → Decidable (x = y)
  | .ok x, .ok y =>
    if h : x = y then isTrue (by rw [h])
    else isFalse (by intro hh; injection hh; contradiction)
  | .error x, .error y =>
    if h : x = y then isTrue (by rw [h])
    else isFalse (by intro hh; injection hh; contradiction)
  | .ok _, .error _ => isFalse (fun h => nomatch h)
  | .error _, .ok _ => isFalse (fun h => nomatch h)

instance [DecidableEq e] [DecidableEq a] : DecidableEq (Except e a) :=
  Except.decEqResult

/-- A concrete extracted dissemination package object. -/
def dipSample : DIPObj :=
  { path := "dip.tar", extract_location := "processing",
    dip_location := "processing/pkg",
    parts := [[("uuid", "u1"), ("object", "u1-obj.jpg"),
      ("location", "processing/pkg")]] }

/-! ### Helper lemmas: Python dict assignment and the association loops -/

theorem lookup_dictSet_self (d : PyDict) (k v : String) :
    List.lookup k (dictSet d k v) = some v := by
  induction d with
  | nil => simp [dictSet, List.lookup]
  | cons p rest ih =>
    obtain ⟨a, b⟩ := p
    by_cases hak : a = k
    · simp [dictSet, hak, List.lookup]
    · have hka : (k == a) = false := by simp [Ne.symm hak]
      simp [dictSet, hak, List.lookup, hka, ih]

theorem lookup_dictSet_ne (d : PyDict) (k v k2 : String) (h : k2 ≠ k) :
    List.lookup k2 (dictSet d k v) = List.lookup k2 d := by
  induction d with
  | nil =>
    have hne : (k2 == k) = false := by simp [h]
    simp [dictSet, List.lookup, hne]
  | cons p rest ih =>
    obtain ⟨a, b⟩ := p
    by_cases hak : a = k
    · subst hak
      have hne : (k2 == a) = false := by simp [h]
      simp [dictSet, List.lookup, hne]
    · simp only [dictSet, if_neg hak, List.lookup]
      cases hka : (k2 == a) with
      | true => rfl
      | false => exact ih

theorem getLast?_cons_eq (a : α) (l : List α) :
    (a :: l).getLast? = match l.getLast? with
      | some g => some g
      | Option.none => some a := by
  cases l with
  | nil => simp
  | cons b bs =>
    rw [List.getLast?_cons_cons]
    cases h : (b :: bs).getLast? with
    | none =>
      have : (b :: bs) ≠ [] := by simp
      rw [← List.getLast?_isSome] at this
      rw [h] at this
      simp at this
    | some g => rfl

theorem lookup_foldl_dictSet (p : String → Bool) (key : String) :
    ∀ (files : List String) (d : PyDict),
      List.lookup key
          (files.foldl (fun d f => if p f then dictSet d key f else d) d)
        = match (files.filter p).getLast? with
          | some f => some f
          | Option.none => List.lookup key d := by
  intro files
  induction files with
  | nil => intro d; rfl
  | cons f fs ih =>
    intro d
    by_cases hf : p f
    · rw [List.foldl_cons, if_pos hf, ih, List.filter_cons_of_pos hf,
        getLast?_cons_eq]
      cases hl : (fs.filter p).getLast? with
      | none => simp [lookup_dictSet_self]
      | some g => simp
    · rw [List.foldl_cons, if_neg hf, ih,
        List.filter_cons_of_neg (by simpa using hf)]

theorem lookup_foldl_dictSet_ne (p : String → Bool) (key k2 : String)
    (h : k2 ≠ key) :
    ∀ (files : List String) (d : PyDict),
      List.lookup k2
          (files.foldl (fun d f => if p f then dictSet d key f else d) d)
        = List.lookup k2 d := by
  intro files
  induction files with
  | nil => intro d; rfl
  | cons f fs ih =>
    intro d
    by_cases hf : p f
    · rw [List.foldl_cons, if_pos hf, ih, lookup_dictSet_ne _ _ _ _ h]
    · rw [List.foldl_cons, if_neg hf, ih]

theorem build_part_lookup_ocr_file (part loc : String) (ocr thumbs : List String) :
    List.lookup "ocr_file" (build_part part loc ocr thumbs)
      = (ocr.filter (fun f => pyIn (part.take 36) f)).getLast? := by
  unfold build_part
  rw [lookup_foldl_dictSet_ne _ _ _ (by decide),
    lookup_foldl_dictSet]
  cases hl : (ocr.filter (fun f => pyIn (part.take 36) f)).getLast? with
  | none => rfl
  | some g => rfl

theorem build_part_lookup_thumbnail (part loc : String) (ocr thumbs : List String) :
    List.lookup "thumbnail" (build_part part loc ocr thumbs)
      = (thumbs.filter (fun t => pyIn (part.take 36) t)).getLast? := by
  unfold build_part
  rw [lookup_foldl_dictSet,
    lookup_foldl_dictSet_ne _ _ _ (by decide)]
  cases hl : (thumbs.filter (fun t => pyIn (part.take 36) t)).getLast? with
  | none => rfl
  | some g => rfl

theorem build_part_lookup_uuid (part loc : String) (ocr thumbs : List String) :
    List.lookup "uuid" (build_part part loc ocr thumbs) = some (part.take 36) := by
  unfold build_part
  rw [lookup_foldl_dictSet_ne _ _ _ (by decide),
    lookup_foldl_dictSet_ne _ _ _ (by decide)]
  rfl

theorem build_part_lookup_ocr (part loc : String) (ocr thumbs : List String) :
    List.lookup "ocr" (build_part part loc ocr thumbs) = Option.none := by
  unfold build_part
  rw [lookup_foldl_dictSet_ne _ _ _ (by decide),
    lookup_foldl_dictSet_ne _ _ _ (by decide)]
  rfl

theorem getLast?_filter_mem_of_eq_some (p : α → Bool) (l : List α) (x : α)
    (h : (l.filter p).getLast? = some x) : p x = true ∧ x ∈ l := by
  have hx : x ∈ l.filter p := by
    obtain ⟨hne, hlast⟩ :=
      List.mem_getLast?_eq_getLast (l := l.filter p) (x := x)
        (by rw [Option.mem_def, h])
    exact hlast ▸ List.getLast_mem hne
  constructor
  · exact (List.mem_filter.mp hx).2
  · exact (List.mem_filter.mp hx).1

/-! ### Helper lemmas: the original-file enumerator -/

namespace Archivematica

theorem AdministrativeMetadata_init_fields (admsec : PyVal) (name : String)
    (path : PyVal) (all : List PyVal) (r : AdminMetadata)
    (h : AdministrativeMetadata_init admsec name path all = .ok r) :
    pyInt r.size = .ok r.sizeInt := by
  unfold AdministrativeMetadata_init at h
  cases h1 : find_admin_metadata all admsec with
  | error e => rw [h1] at h; simp [Bind.bind, Except.bind] at h
  | ok om =>
    rw [h1] at h
    simp only [Bind.bind, Except.bind] at h
    cases h2 : get_size_in_bytes om with
    | error e => rw [h2] at h; simp at h
    | ok size =>
      rw [h2] at h
      simp only [] at h
      cases h3 : pyInt size with
      | error e => rw [h3] at h; simp at h
      | ok n =>
        rw [h3] at h
        simp only [Except.ok.injEq] at h
        rw [← h]
        exact h3

theorem process_file_entry_ok (all : List PyVal) (e : PyVal) (r : AdminMetadata)
    (h : process_file_entry all e = .ok r) :
    pyInt r.size = .ok r.sizeInt := by
  unfold process_file_entry at h
  cases h1 : e.getItem "@ADMID" with
  | error e2 => rw [h1] at h; simp [Bind.bind, Except.bind] at h
  | ok admsec =>
    rw [h1] at h
    simp only [Bind.bind, Except.bind] at h
    cases h2 : e.getItem "mets:FLocat" with
    | error e2 => rw [h2] at h; simp at h
    | ok flocat =>
      rw [h2] at h
      simp only [] at h
      cases h3 : flocat.getItem "@xlink:href" with
      | error e2 => rw [h3] at h; simp at h
      | ok href =>
        rw [h3] at h
        simp only [] at h
        cases href with
        | str s => exact AdministrativeMetadata_init_fields _ _ _ _ _ h
        | none => simp at h
        | dict d => simp at h
        | list l => simp at h

theorem walk_entries_ok (all : List PyVal) :
    ∀ (entries : List PyVal) (l : List AdminMetadata),
      walk_entries all entries = .ok l →
      ∀ r ∈ l, pyInt r.size = .ok r.sizeInt := by
  intro entries
  induction entries with
  | nil =>
    intro l h r hr
    simp only [walk_entries, Except.ok.injEq] at h
    rw [← h] at hr
    simp at hr
  | cons e es ih =>
    intro l h r hr
    unfold walk_entries at h
    cases h1 : process_file all e with
    | error e2 => rw [h1] at h; simp [Bind.bind, Except.bind] at h
    | ok o =>
      rw [h1] at h
      simp only [Bind.bind, Except.bind] at h
      cases h2 : walk_entries all es with
      | error e2 => rw [h2] at h; simp at h
      | ok tail =>
        rw [h2] at h
        cases o with
        | none =>
          simp only [Except.ok.injEq] at h
          rw [← h] at hr
          exact ih tail h2 r hr
        | some a =>
          simp only [Except.ok.injEq] at h
          rw [← h] at hr
          cases hr with
          | head =>
            unfold process_file at h1
            unfold exceptKeyError at h1
            cases h3 : process_file_entry all e with
            | ok r2 =>
              rw [h3] at h1
              simp only [Except.ok.injEq, Option.some.injEq] at h1
              rw [h1] at h3
              exact process_file_entry_ok all e r h3
            | error err =>
              rw [h3] at h1
              cases err <;> simp at h1
          | tail _ hmem => exact ih tail h2 r hmem

theorem walk_groups_ok (all : List PyVal) :
    ∀ (groups : List PyVal) (l : List AdminMetadata),
      walk_groups all groups = .ok l →
      ∀ r ∈ l, pyInt r.size = .ok r.sizeInt := by
  intro groups
  induction groups with
  | nil =>
    intro l h r hr
    simp only [walk_groups, Except.ok.injEq] at h
    rw [← h] at hr
    simp at hr
  | cons g gs ih =>
    intro l h r hr
    unfold walk_groups at h
    cases h1 : g.getItem "@USE" with
    | error e2 => rw [h1] at h; simp [Bind.bind, Except.bind] at h
    | ok use =>
      rw [h1] at h
      simp only [Bind.bind, Except.bind] at h
      by_cases hu : use = PyVal.str "original"
      · rw [if_pos hu] at h
        cases h2 : g.getItem "mets:file" with
        | error e2 => rw [h2] at h; simp [Bind.bind, Except.bind] at h
        | ok files =>
          rw [h2] at h
          simp only [Bind.bind, Except.bind] at h
          cases h3 : files.pyIter with
          | error e2 => rw [h3] at h; simp [Bind.bind, Except.bind] at h
          | ok entries =>
            rw [h3] at h
            simp only [Bind.bind, Except.bind] at h
            cases h4 : walk_entries all entries with
            | error e2 => rw [h4] at h; simp [Bind.bind, Except.bind] at h
            | ok here =>
              rw [h4] at h
              simp only [Bind.bind, Except.bind] at h
              cases h5 : walk_groups all gs with
              | error e2 => rw [h5] at h; simp at h
              | ok tail =>
                rw [h5] at h
                simp only [Except.ok.injEq] at h
                rw [← h] at hr
                rcases List.mem_append.mp hr with hm | hm
                · exact walk_entries_ok all entries here h4 r hm
                · exact ih tail h5 r hm
      · rw [if_neg hu] at h
        cases h5 : walk_groups all gs with
        | error e2 => rw [h5] at h; simp at h
        | ok tail =>
          rw [h5] at h
          simp only [Except.ok.injEq] at h
          rw [← h] at hr
          simp only [List.nil_append] at hr
          exact ih tail h5 r hr

end Archivematica

namespace Archivematica

theorem find_original_files_ok (contents : PyVal) (all : List PyVal)
    (l : List AdminMetadata) (h : find_original_files contents all = .ok l) :
    ∀ r ∈ l, pyInt r.size = .ok r.sizeInt := by
  unfold find_original_files at h
  simp only [Bind.bind, Except.bind] at h
  split at h
  · simp at h
  · split at h
    · simp at h
    · split at h
      · simp at h
      · split at h
        · simp at h
        · exact walk_groups_ok all _ l h

theorem sum_int_sizes_eq (l : List AdminMetadata) (t : Int)
    (h : sum_int_sizes l = .ok t)
    (hinv : ∀ r ∈ l, pyInt r.size = .ok r.sizeInt) :
    t = (l.map (fun r => r.sizeInt)).sum := by
  induction l generalizing t with
  | nil =>
    simp only [sum_int_sizes, Except.ok.injEq] at h
    simp [← h]
  | cons r rest ih =>
    unfold sum_int_sizes at h
    have hr : pyInt r.size = .ok r.sizeInt := hinv r (List.mem_cons_self r rest)
    rw [hr] at h
    simp only [Bind.bind, Except.bind] at h
    cases h2 : sum_int_sizes rest with
    | error e => rw [h2] at h; simp at h
    | ok tail =>
      rw [h2] at h
      simp only [Except.ok.injEq] at h
      have := ih tail h2 (fun r2 hr2 => hinv r2 (List.mem_cons_of_mem r hr2))
      rw [← h, this]
      simp

end Archivematica

namespace Archivematica

theorem METSFile_init_ok (contents : PyVal) (m : METSFileObj)
    (h : METSFile_init contents = .ok m) :
    get_all_administrative_metadata contents = .ok m.administrative_metadata ∧
    find_original_files contents m.administrative_metadata = .ok m.original_files ∧
    sum_int_sizes m.original_files = .ok m.total_size := by
  unfold METSFile_init at h
  simp only [Bind.bind, Except.bind] at h
  split at h
  · simp at h
  · rename_i am ham
    split at h
    · simp at h
    · rename_i ofs hofs
      split at h
      · simp at h
      · rename_i total htotal
        simp only [Except.ok.injEq] at h
        rw [← h]
        exact ⟨ham, hofs, htotal⟩

end Archivematica

theorem head?_filter_eq_find? (p : α → Bool) : ∀ l : List α,
    (l.filter p).head? = l.find? p := by
  intro l
  induction l with
  | nil => rfl
  | cons x xs ih =>
    by_cases hx : p x
    · simp [List.filter_cons_of_pos hx, List.find?_cons_of_pos _ hx]
    · simp [List.filter_cons_of_neg (by simpa using hx), List.find?_cons_of_neg _ hx, ih]

/-! ### The claims -/

open Archivematica

/-- C1: for every parsed METS tree and identifier, `METSSection.get_techmd`
returns the first `mets:xmlData` element in document order whose descendant
`premis:objectIdentifierValue` textually equals the identifier exactly
(case-sensitive, no trimming); with zero matches it raises `IndexError`
instead of silently returning an empty result.  As a pure function of the
document and identifier it is deterministic over repeated runs. -/
theorem claim_C1_techmd_first_match_or_fail (root : XNode) (hash : String) :
    get_techmd root hash =
      match (descendantsSelf root).find?
          (fun n => isTagged "mets:xmlData" n && hasIdentifierValue hash n) with
      | some s => .ok s
      | Option.none => .error .indexError := by
  have h := head?_filter_eq_find?
    (fun n => isTagged "mets:xmlData" n && hasIdentifierValue hash n)
    (descendantsSelf root)
  unfold get_techmd xmlDataMatches
  cases hf : (descendantsSelf root).filter
      (fun n => isTagged "mets:xmlData" n && hasIdentifierValue hash n) with
  | nil =>
    rw [hf] at h
    simp only [List.head?_nil] at h
    rw [← h]
  | cons x rest =>
    rw [hf] at h
    simp only [List.head?_cons] at h
    rw [← h]

/-- C2: during `associate_parts`, a thumbnail or OCR filename is associated
to a part exactly when the part's 36-character identifier `part[:36]` occurs
as a substring anywhere in the candidate filename; among several matches the
last one in iteration order wins; a non-matching filename is never
associated. -/
theorem claim_C2_associate_parts_substring (parts ocr_files thumbnails : List String)
    (dip_location : String) (d : PyDict)
    (hd : d ∈ associate_parts parts ocr_files thumbnails dip_location) :
    ∃ part ∈ parts,
      d = build_part part dip_location ocr_files thumbnails ∧
      List.lookup "uuid" d = some (part.take 36) ∧
      List.lookup "ocr_file" d
        = (ocr_files.filter (fun f => pyIn (part.take 36) f)).getLast? ∧
      List.lookup "thumbnail" d
        = (thumbnails.filter (fun t => pyIn (part.take 36) t)).getLast? ∧
      (∀ f, List.lookup "ocr_file" d = some f →
        pyIn (part.take 36) f = true ∧ f ∈ ocr_files) ∧
      (∀ t, List.lookup "thumbnail" d = some t →
        pyIn (part.take 36) t = true ∧ t ∈ thumbnails) := by
  obtain ⟨part, hp, hbuild⟩ := List.mem_map.mp hd
  refine ⟨part, hp, hbuild.symm, ?_, ?_, ?_, ?_, ?_⟩
  · rw [← hbuild]; exact build_part_lookup_uuid part dip_location ocr_files thumbnails
  · rw [← hbuild]; exact build_part_lookup_ocr_file part dip_location ocr_files thumbnails
  · rw [← hbuild]; exact build_part_lookup_thumbnail part dip_location ocr_files thumbnails
  · intro f hf
    rw [← hbuild, build_part_lookup_ocr_file] at hf
    exact getLast?_filter_mem_of_eq_some _ _ _ hf
  · intro t ht
    rw [← hbuild, build_part_lookup_thumbnail] at ht
    exact getLast?_filter_mem_of_eq_some _ _ _ ht

/-- Witness for C2 at a concrete extracted package: one object file, two
matching OCR candidates (the later one wins) and one matching thumbnail. -/
theorem claim_C2_witness :
    ∃ part ∈ (["u1-obj.jpg"] : List String),
      (build_part "u1-obj.jpg" "loc" ["u1-a.txt", "zz.txt", "u1-b.txt"] ["u1.jpg"])
          = build_part part "loc" ["u1-a.txt", "zz.txt", "u1-b.txt"] ["u1.jpg"] ∧
      List.lookup "uuid" (build_part "u1-obj.jpg" "loc" ["u1-a.txt", "zz.txt", "u1-b.txt"] ["u1.jpg"])
        = some (part.take 36) ∧
      List.lookup "ocr_file" (build_part "u1-obj.jpg" "loc" ["u1-a.txt", "zz.txt", "u1-b.txt"] ["u1.jpg"])
        = ((["u1-a.txt", "zz.txt", "u1-b.txt"] : List String).filter
            (fun f => pyIn (part.take 36) f)).getLast? ∧
      List.lookup "thumbnail" (build_part "u1-obj.jpg" "loc" ["u1-a.txt", "zz.txt", "u1-b.txt"] ["u1.jpg"])
        = ((["u1.jpg"] : List String).filter
            (fun t => pyIn (part.take 36) t)).getLast? ∧
      (∀ f, List.lookup "ocr_file" (build_part "u1-obj.jpg" "loc" ["u1-a.txt", "zz.txt", "u1-b.txt"] ["u1.jpg"]) = some f →
        pyIn (part.take 36) f = true ∧ f ∈ (["u1-a.txt", "zz.txt", "u1-b.txt"] : List String)) ∧
      (∀ t, List.lookup "thumbnail" (build_part "u1-obj.jpg" "loc" ["u1-a.txt", "zz.txt", "u1-b.txt"] ["u1.jpg"]) = some t →
        pyIn (part.take 36) t = true ∧ t ∈ (["u1.jpg"] : List String)) :=
  claim_C2_associate_parts_substring ["u1-obj.jpg"]
    ["u1-a.txt", "zz.txt", "u1-b.txt"] ["u1.jpg"] "loc"
    (build_part "u1-obj.jpg" "loc" ["u1-a.txt", "zz.txt", "u1-b.txt"] ["u1.jpg"])
    (by simp [associate_parts])

/-- C10: every part dict built by `associate_parts` stores a matched OCR
filename under the key `"ocr_file"` and never under the key `"ocr"`;
`DIPPart.__identify_ocr` tests for `"ocr"`, so `DIPPart.ocr` is always the
empty string for these packages and `add_ocr` attaches no OCR datastream
even when an OCR file was matched. -/
theorem claim_C10_ocr_key_never_read (parts ocr_files thumbnails : List String)
    (dip_location : String) (d : PyDict)
    (hd : d ∈ associate_parts parts ocr_files thumbnails dip_location) :
    List.lookup "ocr" d = Option.none ∧
    (∃ part ∈ parts,
      List.lookup "ocr_file" d
        = (ocr_files.filter (fun f => pyIn (part.take 36) f)).getLast?) ∧
    identify_ocr d = .ok "" ∧
    (∀ path, add_ocr "" path = Option.none) := by
  obtain ⟨part, hp, hbuild⟩ := List.mem_map.mp hd
  have hocr : List.lookup "ocr" d = Option.none := by
    rw [← hbuild]; exact build_part_lookup_ocr part dip_location ocr_files thumbnails
  refine ⟨hocr, ⟨part, hp, ?_⟩, ?_, fun path => rfl⟩
  · rw [← hbuild]; exact build_part_lookup_ocr_file part dip_location ocr_files thumbnails
  · unfold identify_ocr dictHasKey
    rw [hocr]
    rfl

/-- Witness for C10 at a concrete package in which an OCR file was matched
to the part: the dict holds it under `"ocr_file"`, yet `identify_ocr` still
yields the empty string. -/
theorem claim_C10_witness :
    List.lookup "ocr" (build_part "u1-obj.jpg" "loc" ["u1-ocr.txt"] []) = Option.none ∧
    (∃ part ∈ (["u1-obj.jpg"] : List String),
      List.lookup "ocr_file" (build_part "u1-obj.jpg" "loc" ["u1-ocr.txt"] [])
        = ((["u1-ocr.txt"] : List String).filter
            (fun f => pyIn (part.take 36) f)).getLast?) ∧
    identify_ocr (build_part "u1-obj.jpg" "loc" ["u1-ocr.txt"] []) = .ok "" ∧
    (∀ path, add_ocr "" path = Option.none) :=
  claim_C10_ocr_key_never_read ["u1-obj.jpg"] ["u1-ocr.txt"] [] "loc"
    (build_part "u1-obj.jpg" "loc" ["u1-ocr.txt"] [])
    (by simp [associate_parts])

/-- C6: for every successfully loaded `METSFile`, `total_size` equals the
exact integer sum of the integer-parsed size of every record in
`original_files` (integer addition, no rounding). -/
theorem claim_C6_total_size_exact_sum (contents : PyVal)
    (m : Archivematica.METSFileObj)
    (h : Archivematica.METSFile_init contents = .ok m) :
    m.total_size = (m.original_files.map (fun r => r.sizeInt)).sum ∧
    ∀ r ∈ m.original_files, pyInt r.size = .ok r.sizeInt := by
  obtain ⟨ham, hofs, htotal⟩ := Archivematica.METSFile_init_ok contents m h
  have hinv := Archivematica.find_original_files_ok contents
    m.administrative_metadata m.original_files hofs
  exact ⟨Archivematica.sum_int_sizes_eq m.original_files m.total_size htotal hinv,
    hinv⟩

/-- Witness for C6: loading the sample document yields two records of sizes
3 and 4 and `total_size = 7`. -/
theorem claim_C6_witness :
    sampleM.total_size = (sampleM.original_files.map (fun r => r.sizeInt)).sum ∧
    ∀ r ∈ sampleM.original_files, pyInt r.size = .ok r.sizeInt :=
  claim_C6_total_size_exact_sum sampleDoc sampleM (by decide)

/-- Counterexample to C5: in `skipDoc` the single file entry of the
`"original"` group carries both an `@ADMID` and a location reference — a
"remaining" entry in the claim's sense — yet the loaded document has an
empty `original_files` list (the size lookup inside record construction
raises `KeyError`, which the enumerator's handler swallows), so the entry
does not yield exactly one record. -/
theorem claim_C5_counterexample :
    PyVal.getItem skipEntry "@ADMID" = .ok (.str "amd1") ∧
    PyVal.getItem skipEntry "mets:FLocat"
      = .ok (.dict [("@xlink:href", .str "objects/a.txt")]) ∧
    Archivematica.METSFile_init skipDoc
      = .ok { administrative_metadata := [skimpySec],
              original_files := [], total_size := 0 } := by
  refine ⟨by decide, by decide, by decide⟩

/-- C5 as amended: the enumerator walks only file groups whose `@USE` is
`"original"`; a file entry whose processing raises `KeyError` — in
particular one missing the `@ADMID` or the location reference — is skipped
without error; and an entry yields exactly one record precisely when its
whole record construction succeeds (missing ADMID/location is not the only
way to be dropped). -/
theorem claim_C5_skip_semantics :
    (∀ (all : List PyVal) (g : PyVal) (gs : List PyVal) (u : PyVal),
      PyVal.getItem g "@USE" = .ok u → u ≠ .str "original" →
      Archivematica.walk_groups all (g :: gs) = Archivematica.walk_groups all gs) ∧
    (∀ (all : List PyVal) (e : PyVal) (es : List PyVal),
      Archivematica.process_file_entry all e = .error .keyError →
      Archivematica.walk_entries all (e :: es) = Archivematica.walk_entries all es) ∧
    (∀ (all : List PyVal) (e : PyVal),
      PyVal.getItem e "@ADMID" = .error .keyError →
      Archivematica.process_file_entry all e = .error .keyError) ∧
    (∀ (all : List PyVal) (e : PyVal) (a : PyVal),
      PyVal.getItem e "@ADMID" = .ok a →
      PyVal.getItem e "mets:FLocat" = .error .keyError →
      Archivematica.process_file_entry all e = .error .keyError) ∧
    (∀ (all : List PyVal) (e : PyVal) (es : List PyVal)
        (r : Archivematica.AdminMetadata),
      Archivematica.process_file_entry all e = .ok r →
      Archivematica.walk_entries all (e :: es)
        = Except.map (fun tail => r :: tail) (Archivematica.walk_entries all es)) := by
  refine ⟨?_, ?_, ?_, ?_, ?_⟩
  · intro all g gs u hu hne
    cases hw : Archivematica.walk_groups all gs with
    | error e2 =>
      simp [Archivematica.walk_groups, Bind.bind, Except.bind, hu, hne, hw]
    | ok tail =>
      simp [Archivematica.walk_groups, Bind.bind, Except.bind, hu, hne, hw]
  · intro all e es h
    cases hw : Archivematica.walk_entries all es with
    | error e2 =>
      simp [Archivematica.walk_entries, Archivematica.process_file,
        exceptKeyError, Bind.bind, Except.bind, h, hw]
    | ok tail =>
      simp [Archivematica.walk_entries, Archivematica.process_file,
        exceptKeyError, Bind.bind, Except.bind, h, hw]
  · intro all e h
    simp [Archivematica.process_file_entry, Bind.bind, Except.bind, h]
  · intro all e a ha hfl
    simp [Archivematica.process_file_entry, Bind.bind, Except.bind, ha, hfl]
  · intro all e es r h
    cases hw : Archivematica.walk_entries all es with
    | error e2 =>
      simp [Archivematica.walk_entries, Archivematica.process_file,
        exceptKeyError, Bind.bind, Except.bind, h, hw, Except.map]
    | ok tail =>
      simp [Archivematica.walk_entries, Archivematica.process_file,
        exceptKeyError, Bind.bind, Except.bind, h, hw, Except.map]

/-- Witness for the amended C5, exercising each conjunct at a concrete
input: a non-original group is ignored, an entry without `@ADMID` and an
entry without `mets:FLocat` are skipped, and the complete `sampleEntry1`
yields exactly the one expected record. -/
theorem claim_C5_witness :
    Archivematica.walk_groups []
        [.dict [("@USE", .str "preservation")]] = Archivematica.walk_groups [] [] ∧
    Archivematica.walk_entries [] [.dict []] = Archivematica.walk_entries [] [] ∧
    Archivematica.process_file_entry [] (.dict [("@ADMID", .str "x")])
      = .error .keyError ∧
    Archivematica.walk_entries [sampleSec1] [sampleEntry1]
      = Except.map
          (fun tail =>
            ({ id := .str "amd1", name := "a.txt", path := .str "objects/a.txt",
               original_metadata := sampleSec1, size := .str "3",
               sizeInt := 3 } : Archivematica.AdminMetadata) :: tail)
          (Archivematica.walk_entries [sampleSec1] []) :=
  ⟨claim_C5_skip_semantics.1 [] (.dict [("@USE", .str "preservation")]) []
      (.str "preservation") (by decide) (by decide),
    claim_C5_skip_semantics.2.1 [] (.dict []) []
      (claim_C5_skip_semantics.2.2.1 [] (.dict []) (by decide)),
    claim_C5_skip_semantics.2.2.2.1 [] (.dict [("@ADMID", .str "x")]) (.str "x")
      (by decide) (by decide),
    claim_C5_skip_semantics.2.2.2.2 [sampleSec1] sampleEntry1 []
      { id := .str "amd1", name := "a.txt", path := .str "objects/a.txt",
        original_metadata := sampleSec1, size := .str "3", sizeInt := 3 }
      (by decide)⟩

/-- C9: when a file entry's `@ADMID` matches no section's `@ID`, the section
lookup falls off its loop and returns `None`; the size access during record
construction then subscripts `None` and raises `TypeError` — which, unlike
`KeyError`, the enumerator's handler does not swallow — so the whole
document load aborts, whereas an entry with a missing `@ADMID` is merely
skipped. -/
theorem claim_C9_dangling_admid_aborts :
    (∀ (all : List PyVal) (admsec : PyVal),
      (∀ s ∈ all, ∃ v, PyVal.getItem s "@ID" = .ok v ∧ v ≠ admsec) →
      Archivematica.find_admin_metadata all admsec = .ok .none) ∧
    (∀ (all : List PyVal) (admsec : PyVal) (nm : String) (p : PyVal),
      Archivematica.find_admin_metadata all admsec = .ok .none →
      Archivematica.AdministrativeMetadata_init admsec nm p all
        = .error .typeError) ∧
    ((PyErr.typeError ≠ PyErr.keyError) ∧
     ∀ (all : List PyVal) (e : PyVal) (es : List PyVal),
      PyVal.getItem e "@ADMID" = .error .keyError →
      Archivematica.walk_entries all (e :: es)
        = Archivematica.walk_entries all es) ∧
    (∀ (all : List PyVal) (e : PyVal) (es : List PyVal)
        (admsec flocat : PyVal) (h : String),
      PyVal.getItem e "@ADMID" = .ok admsec →
      PyVal.getItem e "mets:FLocat" = .ok flocat →
      PyVal.getItem flocat "@xlink:href" = .ok (.str h) →
      Archivematica.find_admin_metadata all admsec = .ok .none →
      Archivematica.walk_entries all (e :: es) = .error .typeError) ∧
    (∀ (contents root amd fsec grps g files : PyVal)
        (all : List PyVal) (e : PyVal) (es : List PyVal),
      PyVal.getItem contents "mets:mets" = .ok root →
      PyVal.getItem root "mets:amdSec" = .ok amd →
      amd.pyIter = .ok all →
      PyVal.getItem root "mets:fileSec" = .ok fsec →
      PyVal.getItem fsec "mets:fileGrp" = .ok grps →
      grps.pyIter = .ok [g] →
      PyVal.getItem g "@USE" = .ok (.str "original") →
      PyVal.getItem g "mets:file" = .ok files →
      files.pyIter = .ok (e :: es) →
      Archivematica.walk_entries all (e :: es) = .error .typeError →
      Archivematica.METSFile_init contents = .error .typeError) := by
  have hinit : ∀ (all : List PyVal) (admsec : PyVal) (nm : String) (p : PyVal),
      Archivematica.find_admin_metadata all admsec = .ok .none →
      Archivematica.AdministrativeMetadata_init admsec nm p all
        = .error .typeError := by
    intro all admsec nm p hfind
    simp [Archivematica.AdministrativeMetadata_init, Bind.bind, Except.bind,
      hfind, Archivematica.get_size_in_bytes, PyVal.getItem]
  refine ⟨?_, hinit, ⟨by decide, ?_⟩, ?_, ?_⟩
  · intro all admsec hno
    induction all with
    | nil => rfl
    | cons s rest ih =>
      obtain ⟨v, hv, hne⟩ := hno s (List.mem_cons_self s rest)
      have hrest := ih (fun s2 hs2 => hno s2 (List.mem_cons_of_mem s hs2))
      simp [Archivematica.find_admin_metadata, Bind.bind, Except.bind, hv,
        hne, hrest]
  · intro all e es hadm
    cases hw : Archivematica.walk_entries all es with
    | error e2 =>
      simp [Archivematica.walk_entries, Archivematica.process_file,
        Archivematica.process_file_entry, exceptKeyError, Bind.bind,
        Except.bind, hadm, hw]
    | ok tail =>
      simp [Archivematica.walk_entries, Archivematica.process_file,
        Archivematica.process_file_entry, exceptKeyError, Bind.bind,
        Except.bind, hadm, hw]
  · intro all e es admsec flocat h hadm hfl hhref hfind
    have hpfe : Archivematica.process_file_entry all e = .error .typeError := by
      simp [Archivematica.process_file_entry, Bind.bind, Except.bind, hadm,
        hfl, hhref, hinit all admsec (lastPathSegment h) (.str h) hfind]
    simp [Archivematica.walk_entries, Archivematica.process_file,
      exceptKeyError, Bind.bind, Except.bind, hpfe]
  · intro contents root amd fsec grps g files all e es h1 h2 h3 h4 h5 h6 h7 h8 h9 hwe
    simp [Archivematica.METSFile_init,
      Archivematica.get_all_administrative_metadata,
      Archivematica.find_original_files, Archivematica.walk_groups,
      Bind.bind, Except.bind, h1, h2, h3, h4, h5, h6, h7, h8, h9, hwe]

/-- Witness for C9 on `dangleDoc`: the unmatched lookup returns `None`,
record construction raises `TypeError`, the walk aborts, and the whole
document load fails with `TypeError`, while an entry without `@ADMID` is
skipped. -/
theorem claim_C9_witness :
    Archivematica.find_admin_metadata [dangleSec] (.str "amd1") = .ok .none ∧
    Archivematica.AdministrativeMetadata_init (.str "amd1") "a.txt"
      (.str "objects/a.txt") [dangleSec] = .error .typeError ∧
    Archivematica.walk_entries [dangleSec] [.dict []]
      = Archivematica.walk_entries [dangleSec] [] ∧
    Archivematica.walk_entries [dangleSec] [sampleEntry1]
      = .error .typeError ∧
    Archivematica.METSFile_init dangleDoc = .error .typeError :=
  ⟨claim_C9_dangling_admid_aborts.1 [dangleSec] (.str "amd1")
      (by
        intro s hs
        simp only [List.mem_singleton] at hs
        subst hs
        exact ⟨.str "amdX", by decide, by decide⟩),
    claim_C9_dangling_admid_aborts.2.1 [dangleSec] (.str "amd1") "a.txt"
      (.str "objects/a.txt") (by decide),
    claim_C9_dangling_admid_aborts.2.2.1.2 [dangleSec] (.dict []) []
      (by decide),
    claim_C9_dangling_admid_aborts.2.2.2.1 [dangleSec] sampleEntry1 []
      (.str "amd1") (.dict [("@xlink:href", .str "objects/a.txt")])
      "objects/a.txt" (by decide) (by decide) (by decide) (by decide),
    claim_C9_dangling_admid_aborts.2.2.2.2 dangleDoc
      (.dict [("mets:amdSec", .list [dangleSec]),
        ("mets:fileSec", .dict [("mets:fileGrp", .list [
          .dict [("@USE", .str "original"),
            ("mets:file", .list [sampleEntry1])]])])])
      (.list [dangleSec])
      (.dict [("mets:fileGrp", .list [
          .dict [("@USE", .str "original"),
            ("mets:file", .list [sampleEntry1])]])])
      (.list [.dict [("@USE", .str "original"),
          ("mets:file", .list [sampleEntry1])]])
      (.dict [("@USE", .str "original"),
          ("mets:file", .list [sampleEntry1])])
      (.list [sampleEntry1])
      [dangleSec] sampleEntry1 []
      (by decide) (by decide) (by decide) (by decide) (by decide) (by decide)
      (by decide) (by decide) (by decide) (by decide)⟩

theorem bitmathBestIdx_pow_le (n : Nat) (hn : 1 ≤ n) :
    1024 ^ bitmathBestIdx n ≤ n := by
  unfold bitmathBestIdx
  split_ifs <;> norm_num at * <;> omega

theorem bitmathBestIdx_lt_pow (n : Nat) (h : bitmathBestIdx n < 6) :
    n < 1024 ^ (bitmathBestIdx n + 1) := by
  unfold bitmathBestIdx at *
  split_ifs at * <;> norm_num at * <;> omega

theorem bitmathBestIdx_eq_spec (n : Nat) (h : n < 1024 ^ 5) :
    bitmathBestIdx n = specUnitIdx n := by
  unfold bitmathBestIdx specUnitIdx
  split_ifs <;> norm_num at * <;> omega

theorem naturalsize_unit_kB (n : Nat) (h1 : 1000 ≤ n) (h2 : n < 1000 ^ 2) :
    naturalsize n = ((n : ℚ) / 1000, "kB") := by
  have e1 : ¬ n = 1 := by omega
  have e2 : ¬ n < 1000 := by omega
  have e3 : n < 1000000 := by norm_num at h2; omega
  simp [naturalsize, naturalsizeLoop, naturalsizeSuffixes, e1, e2, e3]
  norm_num
  ring

theorem naturalsize_unit_MB (n : Nat) (h1 : 1000 ^ 2 ≤ n) (h2 : n < 1000 ^ 3) :
    naturalsize n = ((n : ℚ) / 1000000, "MB") := by
  have e1 : ¬ n = 1 := by norm_num at h1; omega
  have e2 : ¬ n < 1000 := by norm_num at h1; omega
  have e3 : ¬ n < 1000000 := by norm_num at h1; omega
  have e4 : n < 1000000000 := by norm_num at h2; omega
  simp [naturalsize, naturalsizeLoop, naturalsizeSuffixes, e1, e2, e3, e4]
  norm_num
  ring

/-- Counterexample to C3: at the claim's own example input 81143107, the
package total renders in MiB with exact scaled value 81143107/1048576,
which lies strictly between 77.38 and 77.39 — so no two-decimal rendering
of it is 77.37 MiB — and the per-file `get_size` rendering
(`humanize.naturalsize`) picks the decimal unit "MB" with value 81.143107,
not the claimed binary MiB scaling. -/
theorem claim_C3_counterexample :
    pretty_total_size 81143107 = ((81143107 : ℚ) / 1048576, "MiB") ∧
    (7738 : ℚ) / 100 < (81143107 : ℚ) / 1048576 ∧
    (81143107 : ℚ) / 1048576 < (7739 : ℚ) / 100 ∧
    naturalsize 81143107 = ((81143107 : ℚ) / 1000000, "MB") ∧
    ("MB" : String) ≠ "MiB" := by
  refine ⟨?_, by norm_num, by norm_num, ?_, by decide⟩
  · norm_num [pretty_total_size, bitmathBestUnit, bitmathBestIdx, nistUnits]
  · norm_num [naturalsize, naturalsizeLoop, naturalsizeSuffixes]

/-- C3 as amended: `pretty_total_size` (bitmath `best_prefix`, NIST scale)
chooses the largest binary unit among Byte, KiB, MiB, GiB, TiB, PiB, EiB
whose scaled value is ≥ 1 — agreeing with the claimed B..TiB rule for
counts below 1024^5 — and keeps the value at full precision (81143107
bytes is ≈77.384 MiB; a two-decimal rendering would be 77.38, not 77.37);
the per-file `get_size` instead uses `humanize.naturalsize`'s decimal
1000-base units (kB, MB, ...), rendering 81143107 bytes as 81.1 MB. -/
theorem claim_C3_unit_scaling (n : Nat) (hn : 1 ≤ n) :
    (1024 ^ bitmathBestIdx n ≤ n ∧
      (bitmathBestIdx n < 6 → n < 1024 ^ (bitmathBestIdx n + 1)) ∧
      (n < 1024 ^ 5 → bitmathBestIdx n = specUnitIdx n) ∧
      pretty_total_size n
        = ((n : ℚ) / 1024 ^ bitmathBestIdx n,
           nistUnits.getD (bitmathBestIdx n) "EiB")) ∧
    (1000 ≤ n → n < 1000 ^ 2 → naturalsize n = ((n : ℚ) / 1000, "kB")) ∧
    (1000 ^ 2 ≤ n → n < 1000 ^ 3 → naturalsize n = ((n : ℚ) / 1000000, "MB")) ∧
    pretty_total_size 81143107 = ((81143107 : ℚ) / 1048576, "MiB") ∧
    (7738 : ℚ) / 100 < (81143107 : ℚ) / 1048576 ∧
    (81143107 : ℚ) / 1048576 < (7739 : ℚ) / 100 ∧
    naturalsize 81143107 = ((81143107 : ℚ) / 1000000, "MB") := by
  refine ⟨⟨bitmathBestIdx_pow_le n hn, bitmathBestIdx_lt_pow n,
      bitmathBestIdx_eq_spec n, rfl⟩,
    naturalsize_unit_kB n, naturalsize_unit_MB n, ?_, by norm_num, by norm_num, ?_⟩
  · norm_num [pretty_total_size, bitmathBestUnit, bitmathBestIdx, nistUnits]
  · norm_num [naturalsize, naturalsizeLoop, naturalsizeSuffixes]

/-- Witness for the amended C3 at the byte count 81143107: the chosen unit
index is 2 (MiB), on the claimed B..TiB range it agrees with the spec's
rule, and the decimal per-file rendering picks "MB". -/
theorem claim_C3_witness :
    (1024 ^ bitmathBestIdx 81143107 ≤ 81143107 ∧
      (bitmathBestIdx 81143107 < 6 →
        81143107 < 1024 ^ (bitmathBestIdx 81143107 + 1)) ∧
      (81143107 < 1024 ^ 5 → bitmathBestIdx 81143107 = specUnitIdx 81143107) ∧
      pretty_total_size 81143107
        = ((81143107 : ℚ) / 1024 ^ bitmathBestIdx 81143107,
           nistUnits.getD (bitmathBestIdx 81143107) "EiB")) ∧
    (1000 ≤ 81143107 → 81143107 < 1000 ^ 2 →
      naturalsize 81143107 = ((81143107 : ℚ) / 1000, "kB")) ∧
    (1000 ^ 2 ≤ 81143107 → 81143107 < 1000 ^ 3 →
      naturalsize 81143107 = ((81143107 : ℚ) / 1000000, "MB")) ∧
    pretty_total_size 81143107 = ((81143107 : ℚ) / 1048576, "MiB") ∧
    (7738 : ℚ) / 100 < (81143107 : ℚ) / 1048576 ∧
    (81143107 : ℚ) / 1048576 < (7739 : ℚ) / 100 ∧
    naturalsize 81143107 = ((81143107 : ℚ) / 1000000, "MB") :=
  claim_C3_unit_scaling 81143107 (by norm_num)

/-- Counterexample to C4: on a section with a format but no format-registry
reference, `get_pronom_link` raises `KeyError` rather than returning the
empty string. -/
theorem claim_C4_counterexample :
    Archivematica.get_pronom_link noRegSec = .error .keyError ∧
    (Except.error PyErr.keyError : Except PyErr String) ≠ .ok "" := by
  exact ⟨by decide, by decide⟩

/-- C4 as amended: `get_pronom_link` returns
`"http://nationalarchives.gov.uk/PRONOM/<key>"` exactly when the registry
name equals the literal `"PRONOM"`, and `""` for any other registry name;
but when the section has no format-registry reference at all it propagates
the `KeyError` from `get_format_registry` instead of returning `""`.  It
remains a pure derivation with no network call. -/
theorem claim_C4_pronom_link (om : PyVal) :
    (∀ key, Archivematica.get_format_registry om = .ok (.str "PRONOM", key) →
      Archivematica.get_pronom_link om
        = .ok ("http://nationalarchives.gov.uk/PRONOM/"
            ++ Archivematica.pyStr key)) ∧
    (∀ name key, Archivematica.get_format_registry om = .ok (name, key) →
      name ≠ .str "PRONOM" →
      Archivematica.get_pronom_link om = .ok "") ∧
    (∀ err, Archivematica.get_format_registry om = .error err →
      Archivematica.get_pronom_link om = .error err) := by
  refine ⟨?_, ?_, ?_⟩
  · intro key h
    simp [Archivematica.get_pronom_link, Bind.bind, Except.bind, h]
  · intro name key h hne
    simp [Archivematica.get_pronom_link, Bind.bind, Except.bind, h, hne]
  · intro err h
    simp [Archivematica.get_pronom_link, Bind.bind, Except.bind, h]

/-- Witness for the amended C4 on three concrete sections: a PRONOM
registry yields the constructed URL, a non-PRONOM registry the empty
string, and a missing registry reference the `KeyError`. -/
theorem claim_C4_witness :
    Archivematica.get_pronom_link pronomSec
      = .ok ("http://nationalarchives.gov.uk/PRONOM/"
          ++ Archivematica.pyStr (.str "fmt/43")) ∧
    Archivematica.get_pronom_link otherRegSec = .ok "" ∧
    Archivematica.get_pronom_link noRegSec = .error .keyError :=
  ⟨(claim_C4_pronom_link pronomSec).1 (.str "fmt/43") (by decide),
    (claim_C4_pronom_link otherRegSec).2.1 (.str "MIME") (.str "image/jpeg")
      (by decide) (by decide),
    (claim_C4_pronom_link noRegSec).2.2 .keyError (by decide)⟩

/-- Counterexample to C8: on a section whose format has no registry
reference, `get_format_registry` does not return an empty/absent result —
it raises `KeyError`. -/
theorem claim_C8_counterexample :
    Archivematica.get_format_registry noRegSec = .error .keyError ∧
    (Except.error PyErr.keyError : Except PyErr (PyVal × PyVal))
      ≠ .ok (.str "", .str "") := by
  exact ⟨by decide, by decide⟩

/-- C8 as amended: when the format has no registry reference
`get_format_registry` raises `KeyError` (it does not return an empty
result without failing); `get_checksum` likewise fails with `KeyError` —
an explicit failure, never a silently defaulted value — when the
`premis:fixity` element is absent, and both accessors propagate a failure
of the common accessor stem. -/
theorem claim_C8_accessor_failures (om : PyVal) :
    (∀ f, Archivematica.get_format om = .ok f →
      PyVal.getItem f "premis:formatRegistry" = .error .keyError →
      Archivematica.get_format_registry om = .error .keyError) ∧
    (∀ err, Archivematica.get_format om = .error err →
      Archivematica.get_format_registry om = .error err) ∧
    (∀ a b c d2 e2,
      PyVal.getItem om "mets:techMD" = .ok a →
      PyVal.getItem a "mets:mdWrap" = .ok b →
      PyVal.getItem b "mets:xmlData" = .ok c →
      PyVal.getItem c "premis:object" = .ok d2 →
      PyVal.getItem d2 "premis:objectCharacteristics" = .ok e2 →
      PyVal.getItem e2 "premis:fixity" = .error .keyError →
      Archivematica.get_checksum om = .error .keyError) := by
  refine ⟨?_, ?_, ?_⟩
  · intro f h hreg
    simp [Archivematica.get_format_registry, Bind.bind, Except.bind, h, hreg]
  · intro err h
    simp [Archivematica.get_format_registry, Bind.bind, Except.bind, h]
  · intro a b c d2 e2 h1 h2 h3 h4 h5 h6
    simp [Archivematica.get_checksum, Bind.bind, Except.bind,
      h1, h2, h3, h4, h5, h6]

/-- Witness for the amended C8: `noRegSec` has a format but no registry
reference and `get_format_registry` raises `KeyError`; `sampleSec1` has
technical metadata but no fixity and `get_checksum` raises `KeyError`. -/
theorem claim_C8_witness :
    Archivematica.get_format_registry noRegSec = .error .keyError ∧
    Archivematica.get_checksum sampleSec1 = .error .keyError :=
  ⟨(claim_C8_accessor_failures noRegSec).1
      (.dict [("premis:formatDesignation",
        .dict [("premis:formatName", .str "JPEG")])])
      (by decide) (by decide),
    (claim_C8_accessor_failures sampleSec1).2.2
      (.dict [("mets:mdWrap", .dict [("mets:xmlData",
        .dict [("premis:object", .dict [("premis:objectCharacteristics",
          .dict [("premis:size", .str "3")])])])])])
      (.dict [("mets:xmlData", .dict [("premis:object",
        .dict [("premis:objectCharacteristics",
          .dict [("premis:size", .str "3")])])])])
      (.dict [("premis:object", .dict [("premis:objectCharacteristics",
        .dict [("premis:size", .str "3")])])])
      (.dict [("premis:objectCharacteristics",
        .dict [("premis:size", .str "3")])])
      (.dict [("premis:size", .str "3")])
      (by decide) (by decide) (by decide) (by decide) (by decide) (by decide)⟩

/-- Counterexample to C7: on a filesystem where the extraction directory
exists, the first `remove_extracted_package` succeeds but a second call
raises `FileNotFoundError` — calling cleanup twice does raise — and after
cleanup the object still answers attribute reads with its stale stored
paths (the returned object is `dipSample` itself, and no `StateError`
exception exists anywhere in the code). -/
theorem claim_C7_counterexample :
    remove_extracted_package dipSample ["processing"] = .ok (dipSample, []) ∧
    remove_extracted_package dipSample [] = .error .fileNotFoundError ∧
    dipSample.parts
      = [[("uuid", "u1"), ("object", "u1-obj.jpg"),
          ("location", "processing/pkg")]] := by
  exact ⟨by decide, by decide, by decide⟩

/-- C7 as amended: cleanup deletes the extraction directory and returns the
package object unchanged; a second cleanup raises `FileNotFoundError`
instead of being an idempotent no-op; read accessors after cleanup silently
return the stale stored values (`parts`, `dip_location`) — there is no
`StateError` in the code.  (Extraction always runs during construction, so
"cleanup without prior extraction" does not arise for a constructed
package; on a filesystem without the extraction directory, cleanup raises
`FileNotFoundError` as well.) -/
theorem claim_C7_cleanup_raises_on_second_call (d : DIPObj) (fs : FS)
    (h : d.extract_location ∈ fs) :
    remove_extracted_package d fs
      = .ok (d, fs.filter (fun p => p ≠ d.extract_location)) ∧
    d.extract_location ∉ fs.filter (fun p => p ≠ d.extract_location) ∧
    remove_extracted_package d (fs.filter (fun p => p ≠ d.extract_location))
      = .error .fileNotFoundError ∧
    (remove_extracted_package d fs).map (fun r => (r.1.parts, r.1.dip_location))
      = .ok (d.parts, d.dip_location) ∧
    (∀ fs2 : FS, remove_extracted_package d fs2 ≠ .error .fileNotFoundError →
      ∃ fs3, remove_extracted_package d fs2 = .ok (d, fs3)) := by
  have h1 : remove_extracted_package d fs
      = .ok (d, fs.filter (fun p => p ≠ d.extract_location)) := by
    simp [remove_extracted_package, rmtree, h, Except.map]
  have h2 : d.extract_location ∉ fs.filter (fun p => p ≠ d.extract_location) := by
    simp [List.mem_filter]
  refine ⟨h1, h2, ?_, ?_, ?_⟩
  · simp [remove_extracted_package, rmtree, h2, Except.map]
  · rw [h1]; rfl
  · intro fs2 hne
    by_cases hmem : d.extract_location ∈ fs2
    · exact ⟨fs2.filter (fun p => p ≠ d.extract_location),
        by simp [remove_extracted_package, rmtree, hmem, Except.map]⟩
    · exact absurd (by simp [remove_extracted_package, rmtree, hmem, Except.map]) hne

/-- Witness for the amended C7 on the sample package with the extraction
directory present. -/
theorem claim_C7_witness :
    remove_extracted_package dipSample ["processing"]
      = .ok (dipSample,
          (["processing"] : FS).filter
            (fun p => p ≠ dipSample.extract_location)) ∧
    dipSample.extract_location
      ∉ (["processing"] : FS).filter (fun p => p ≠ dipSample.extract_location) ∧
    remove_extracted_package dipSample
        ((["processing"] : FS).filter (fun p => p ≠ dipSample.extract_location))
      = .error .fileNotFoundError ∧
    (remove_extracted_package dipSample ["processing"]).map
        (fun r => (r.1.parts, r.1.dip_location))
      = .ok (dipSample.parts, dipSample.dip_location) ∧
    (∀ fs2 : FS,
      remove_extracted_package dipSample fs2 ≠ .error .fileNotFoundError →
      ∃ fs3, remove_extracted_package dipSample fs2 = .ok (dipSample, fs3)) :=
  claim_C7_cleanup_raises_on_second_call dipSample ["processing"] (by decide)
